import Mathlib

/-!
Shallow embedding of the retrieval ranking pipeline of the agent-ly
repository (src/rag_query/hybrid_search.py, src/rag_query/reranker.py,
src/rag_query/rag_query_system.py), with theorems checking the
natural-language specification against it.

Modelling conventions:
* Python floats are modelled as rationals (ℚ); the claims under study are
  about ordering, filtering and control flow, not float rounding.
* ISO dates are modelled at day granularity as integers; a metadata or
  date-range field is `absent` (missing / falsy), `invalid` (truthy but
  `datetime.fromisoformat` raises), or `valid d`.
* External collaborators (Chroma similarity search, rank_bm25 scores, the
  Cohere rerank endpoint, the LLM, the wall clock) are inputs to the
  pipeline: each call's outcome is a parameter.
* Python exceptions are modelled with `Except PyErr`; an uncaught
  exception is an `Except.error`.
-/

set_option allowUnsafeReducibility true
attribute [local semireducible] Rat.mul Rat.inv Rat.add Rat.sub

namespace AgentLy

/-- Outcome of reading an optional ISO-8601 field: `absent` = key missing or
falsy (empty string / None), `invalid` = present but unparsable
(`datetime.fromisoformat` raises `ValueError`/`TypeError`), `valid d` =
parses to the day number `d`. -/
inductive IsoField
  | absent
  | invalid
  | valid (d : ℤ)
  deriving DecidableEq, Repr

/-- Chunk metadata as used by the pipeline: `content_date`, `file_name`,
`page` (`none` models a missing or falsy value). -/
structure Metadata where
  content_date : IsoField
  file_name : Option String
  page : Option String
  deriving DecidableEq, Repr

/-- The `{}` metadata substituted when the store returns no metadatas
(hybrid_search.py line 109). -/
def Metadata.empty : Metadata := ⟨IsoField.absent, none, none⟩

/-- A langchain `Document`: `page_content` plus `metadata`. -/
structure Doc where
  page_content : String
  metadata : Metadata
  deriving DecidableEq, Repr

/-- A Python exception: class name and message. -/
structure PyErr where
  name : String
  msg : String
  deriving DecidableEq, Repr

deriving instance DecidableEq for Except

/-- The optional `date_range` argument of `RAG.query`: a truthy dict with
`start` and `end` entries (each possibly falsy or unparsable). A `None` or
empty (falsy) dict is modelled as `none` at use sites. -/
structure DateRange where
  start : IsoField
  stop : IsoField
  deriving DecidableEq, Repr

/-- Models `datetime.fromisoformat(x) if x else None` under `try/except
(ValueError, TypeError)` (hybrid_search.py lines 76-83). -/
def parseBound : IsoField → Option ℤ
  | IsoField.valid d => some d
  | _ => none

/-- Parsing of the `date_range` argument into `date_start`/`date_end`
(hybrid_search.py lines 74-83). -/
def parseBounds : Option DateRange → Option ℤ × Option ℤ
  | none => (none, none)
  | some dr => (parseBound dr.start, parseBound dr.stop)

/-- Models `needs_filtering = (date_start or date_end) or recency_boost`
(hybrid_search.py line 86). -/
def needsFiltering (ds de : Option ℤ) (recency_boost : Bool) : Bool :=
  ds.isSome || de.isSome || recency_boost

/-- Models `initial_k = max(rerank_top_k if (rerank or self.use_reranker) else k,
k * 3 if needs_filtering else k * 2)` (hybrid_search.py line 87). -/
def initialK (k rerank_top_k : ℕ) (rerank use_reranker nf : Bool) : ℕ :=
  max (if rerank || use_reranker then rerank_top_k else k)
    (if nf then k * 3 else k * 2)

/-- The over-fetch size `RAG.query` computes from its arguments
(hybrid_search.py lines 74-87). -/
def initialKOf (dr : Option DateRange) (recency_boost rerank use_reranker : Bool)
    (k rerank_top_k : ℕ) : ℕ :=
  let bounds := parseBounds dr
  initialK k rerank_top_k rerank use_reranker
    (needsFiltering bounds.1 bounds.2 recency_boost)

/-- Lookup in the dict `{doc.page_content: (doc, score) for doc, score in
vector_results}` (hybrid_search.py line 95): for duplicate keys the last
entry wins. -/
def lastLookup (vres : List (Doc × ℚ)) (t : String) : Option (Doc × ℚ) :=
  (vres.filter (fun p => p.1.page_content = t)).getLast?

/-- Models `1.0 / (1.0 + vector_score) if vector_score > 0 else 0.0`
(hybrid_search.py line 119). -/
def normalizeDistance (d : ℚ) : ℚ :=
  if 0 < d then 1 / (1 + d) else 0

/-- Semantic similarity assigned to a corpus text: the vector score of the
last semantic hit with that exact `page_content`, with the
`float('inf')` default mapped to `0.0` first (hybrid_search.py
lines 111-119). -/
def normalizedVector (vres : List (Doc × ℚ)) (t : String) : ℚ :=
  normalizeDistance ((lastLookup vres t).elim 0 Prod.snd)

/-- Models `doc = vector_doc if vector_doc else Document(page_content=doc_text,
metadata=metadata)` (hybrid_search.py line 126). -/
def combineDoc (vres : List (Doc × ℚ)) (t : String) (m : Metadata) : Doc :=
  (lastLookup vres t).elim ⟨t, m⟩ Prod.fst

/-- Minimum of a Python list of floats (`min(bm25_scores)`); junk value 0 on
the empty list, on which Python would raise instead — the pipeline only
evaluates it after a successful index access. -/
def listMin : List ℚ → ℚ
  | [] => 0
  | x :: xs => xs.foldl min x

/-- Maximum of a Python list of floats (`max(bm25_scores)`). -/
def listMax : List ℚ → ℚ
  | [] => 0
  | x :: xs => xs.foldl max x

/-- Models `(bm25_score - min) / (max - min + 1e-8) if max > min else 0.0`
(hybrid_search.py line 120). -/
def bm25Normalize (bm : List ℚ) (b : ℚ) : ℚ :=
  if listMin bm < listMax bm then
    (b - listMin bm) / (listMax bm - listMin bm + 1 / 100000000)
  else 0

/-- One iteration of the combining loop (hybrid_search.py lines 109-127):
`bm25_scores[idx]` raises `IndexError` when out of range. -/
def combineStep (alpha : ℚ) (vres : List (Doc × ℚ)) (bm : List ℚ)
    (idx : ℕ) (t : String) (m : Metadata) : Except PyErr (Doc × ℚ) :=
  match bm.get? idx with
  | none => Except.error ⟨"IndexError", "list index out of range"⟩
  | some b =>
    Except.ok (combineDoc vres t m,
      alpha * normalizedVector vres t + (1 - alpha) * bm25Normalize bm b)

/-- The combining loop over `zip(all_docs, all_ids, all_metadatas)`
projected to (text, metadata) pairs (hybrid_search.py lines 108-127). -/
def combineStage (alpha : ℚ) (vres : List (Doc × ℚ)) (bm : List ℚ) :
    ℕ → List (String × Metadata) → Except PyErr (List (Doc × ℚ))
  | _, [] => Except.ok []
  | idx, (t, m) :: rest => do
    let x ← combineStep alpha vres bm idx t m
    let xs ← combineStage alpha vres bm (idx + 1) rest
    pure (x :: xs)

/-- Stable insertion into a list sorted by non-increasing score: keeps
passing strictly greater scores, so equal scores preserve first-come
order, as Python's stable `list.sort(key=..., reverse=True)` does. -/
def insertDesc (x : Doc × ℚ) : List (Doc × ℚ) → List (Doc × ℚ)
  | [] => [x]
  | y :: ys => if x.2 < y.2 then y :: insertDesc x ys else x :: y :: ys

/-- Stable sort by score, descending: models
`combined_results.sort(key=lambda x: x[1], reverse=True)`
(hybrid_search.py lines 130 and 176). -/
def sortDesc : List (Doc × ℚ) → List (Doc × ℚ)
  | [] => []
  | x :: xs => insertDesc x (sortDesc xs)

/-- The 0.8 penalty applied to candidates with missing/unparsable
`content_date` (hybrid_search.py lines 141 and 149). -/
def datePenalty : ℚ := 4 / 5

/-- Models `(date_start and doc_date < date_start) or (date_end and doc_date >
date_end)` (hybrid_search.py line 144). -/
def outOfRange (ds de : Option ℤ) (d : ℤ) : Bool :=
  (ds.elim false (fun s => decide (d < s))) || (de.elim false (fun e => decide (e < d)))

/-- The temporal filtering loop (hybrid_search.py lines 134-149): returns
(`filtered`, `docs_without_dates`), both in input order. -/
def dateFilterSplit (ds de : Option ℤ) :
    List (Doc × ℚ) → List (Doc × ℚ) × List (Doc × ℚ)
  | [] => ([], [])
  | (doc, score) :: rest =>
    let r := dateFilterSplit ds de rest
    match doc.metadata.content_date with
    | IsoField.absent => (r.1, (doc, score * datePenalty) :: r.2)
    | IsoField.invalid => (r.1, (doc, score * datePenalty) :: r.2)
    | IsoField.valid d =>
      if outOfRange ds de d then r else ((doc, score) :: r.1, r.2)

/-- Step 2, temporal filtering (hybrid_search.py lines 133-158): if the
in-range list is empty the penalized list becomes the result, otherwise
the penalized list is appended after the in-range list. -/
def dateFilterStage (ds de : Option ℤ) (l : List (Doc × ℚ)) : List (Doc × ℚ) :=
  let r := dateFilterSplit ds de l
  if r.1 = [] ∧ r.2 ≠ [] then r.2
  else if r.1 ≠ [] ∧ r.2 ≠ [] then r.1 ++ r.2
  else r.1

/-- Recency score of one document (hybrid_search.py lines 163-169): for a
valid date, `1.0 / (1.0 + days_ago / 365.0)`; a denominator of zero
raises `ZeroDivisionError`, which the surrounding
`except (ValueError, TypeError)` does not catch; absent or unparsable
dates leave recency at `0.0`. -/
def recencyVal (now : ℤ) (m : Metadata) : Except PyErr ℚ :=
  match m.content_date with
  | IsoField.valid d =>
    let denom : ℚ := 1 + ((now - d : ℤ) : ℚ) / 365
    if denom = 0 then Except.error ⟨"ZeroDivisionError", "float division by zero"⟩
    else Except.ok (1 / denom)
  | _ => Except.ok 0

/-- The recency boosting loop (hybrid_search.py lines 160-173):
`final_score = 0.7 * hybrid_score + 0.3 * recency`. -/
def recencyBoostStage (now : ℤ) : List (Doc × ℚ) → Except PyErr (List (Doc × ℚ))
  | [] => Except.ok []
  | (doc, s) :: rest => do
    let r ← recencyVal now doc.metadata
    let rest2 ← recencyBoostStage now rest
    pure ((doc, 7 / 10 * s + 3 / 10 * r) :: rest2)

/-- The `collection.get` payload cached by `_build_bm25_index`
(hybrid_search.py lines 48-57 and 101-105). -/
structure ViewData where
  documents : List String
  ids : List String
  metadatas : List Metadata
  deriving DecidableEq, Repr

/-- Outcomes of the external collaborator calls made by one `RAG.query`
call: semantic search results per (question, k), rank_bm25 scores per
question, the Cohere rerank response per (question, candidate list), and
the wall clock. `bm25Scores` models `BM25Okapi.get_scores`, whose output
has one score per corpus document. -/
structure Externals where
  data : ViewData
  vectorSearch : String → ℕ → List (Doc × ℚ)
  bm25Scores : String → List ℚ
  rerankResponse : String → List Doc → Except PyErr (List (Option ℤ))
  now : ℤ

/-- Models `metadatas or [\x7b\x7d] * len(all_docs)` (hybrid_search.py line 109). -/
def effectiveMetadatas (data : ViewData) : List Metadata :=
  if data.metadatas = [] then List.replicate data.documents.length Metadata.empty
  else data.metadatas

/-- Projection of `zip(all_docs, all_ids, all_metadatas)` to the (text,
metadata) pairs the loop body uses; `zip` truncates to the shortest
input. -/
def corpusTriples (data : ViewData) : List (String × Metadata) :=
  ((data.documents.zip data.ids).zip (effectiveMetadatas data)).map
    (fun p => (p.1.1, p.2))

/-- Steps after the hybrid combine (hybrid_search.py lines 129-176): the
first descending sort (line 130), the temporal filter — only when a
bound parsed (line 133) —, then recency boosting with its own final
re-sort (lines 160-176); no re-sort happens when `recency_boost` is
off. -/
def pipelineAfterCombine (ds de : Option ℤ) (recency_boost : Bool) (now : ℤ)
    (combined : List (Doc × ℚ)) : Except PyErr (List (Doc × ℚ)) :=
  let sorted := sortDesc combined
  let filtered :=
    if ds.isSome || de.isSome then dateFilterStage ds de sorted
    else sorted
  if recency_boost then do
    let boosted ← recencyBoostStage now filtered
    pure (sortDesc boosted)
  else pure filtered

/-- Prefix of `RAG.query` up to and including the recency stage (hybrid_search.py
lines 74-176): the candidate list, with final scores, right before
truncation. `_build_bm25_index` constructs `BM25Okapi(tokenized_docs)`;
rank_bm25's `BM25._initialize` computes
`self.avgdl = num_doc / self.corpus_size`, raising `ZeroDivisionError`
when the corpus is empty. -/
def RAG.pipelineCombined (ext : Externals) (use_reranker : Bool) (question : String)
    (k : ℕ) (rerank : Bool) (rerank_top_k : ℕ) (date_range : Option DateRange)
    (recency_boost : Bool) (hybrid_alpha : ℚ) : Except PyErr (List (Doc × ℚ)) :=
  let bounds := parseBounds date_range
  let ik := initialK k rerank_top_k rerank use_reranker
    (needsFiltering bounds.1 bounds.2 recency_boost)
  if ext.data.documents = [] then
    Except.error ⟨"ZeroDivisionError", "division by zero"⟩
  else do
    let vres := ext.vectorSearch question ik
    let combined ← combineStage hybrid_alpha vres (ext.bm25Scores question) 0
      (corpusTriples ext.data)
    pipelineAfterCombine bounds.1 bounds.2 recency_boost ext.now combined

/-- Index extraction for one entry of the external rerank response
(reranker.py lines 54-75): entries without an integer index in
`[0, len(documents))` are skipped. -/
def extractIdx (documents : List Doc) (entry : Option ℤ) : Option Doc :=
  match entry with
  | none => none
  | some i =>
    if h : 0 ≤ i ∧ i.toNat < documents.length then some (documents.get ⟨i.toNat, h.2⟩)
    else none

/-- Models `Reranker.rerank` (reranker.py lines 25-77): empty input short-circuits
to `[]` before the external call; otherwise the external response is
consumed — an exception from the collaborator propagates (there is no
`try/except`), and on success each returned entry's index is mapped back
to the original documents, invalid entries silently skipped. The `top_k`
argument is only forwarded to the external API, shaping its response. -/
def Reranker.rerank (response : Except PyErr (List (Option ℤ)))
    (documents : List Doc) : Except PyErr (List Doc) :=
  if documents = [] then Except.ok []
  else do
    let entries ← response
    pure (entries.filterMap (extractIdx documents))

/-- Models `RAG.query` (hybrid_search.py lines 59-187): the pipeline above, then
truncation to `rerank_top_k` or `k` (line 179), then the rerank step or
the final `k`-truncation (lines 182-185). -/
def RAG.query (ext : Externals) (use_reranker : Bool) (question : String)
    (k : ℕ) (rerank : Bool) (rerank_top_k : ℕ) (date_range : Option DateRange)
    (recency_boost : Bool) (hybrid_alpha : ℚ) : Except PyErr (List Doc) := do
  let combined ← RAG.pipelineCombined ext use_reranker question k rerank
    rerank_top_k date_range recency_boost hybrid_alpha
  let cut := if rerank || use_reranker then rerank_top_k else k
  let results := (combined.take cut).map Prod.fst
  if rerank && use_reranker then
    Reranker.rerank (ext.rerankResponse question results) results
  else
    pure (if k < results.length then results.take k else results)

/-- A citation record built by `RAGQuerySystem.query` (rag_query_system.py
lines 117-122): the dict `{"source": ...}` with a `"page"` key added only
when the metadata value is truthy. -/
structure Citation where
  source : String
  page : Option String
  deriving DecidableEq, Repr

/-- A value of the result dict returned by `RAGQuerySystem.query`; `timing`
abstracts the wall-clock measurements. -/
inductive PyVal
  | str (s : String)
  | cites (l : List Citation)
  | num (n : ℕ)
  | timing
  deriving DecidableEq, Repr

/-- The dicts Python builds preserve key insertion order; we model them as
association lists. -/
abbrev PyDict : Type := List (String × PyVal)

/-- The citation header of one chunk (rag_query_system.py lines 34-43):
`[Source i: file_name(, Page page)?]` followed by the chunk text. -/
def formatChunk (i : ℕ) (c : Doc) : String :=
  "[Source " ++ toString i ++ ": " ++ c.metadata.file_name.getD "Unknown" ++
    (match c.metadata.page with
      | some p => ", Page " ++ p
      | none => "") ++ "]" ++ "\n" ++ c.page_content

/-- Models `RAGQuerySystem._format_context` (rag_query_system.py lines 31-45). -/
def formatContext (chunks : List Doc) : String :=
  String.intercalate ("\n" ++ "\n---\n" ++ "\n")
    (chunks.enum.map (fun p => formatChunk (p.1 + 1) p.2))

/-- ASCII apostrophe, kept out of the literal for hygiene. -/
def apos : String := String.singleton (Char.ofNat 39)

/-- Models `get_rag_prompt` (prompts/rag_query_prompt.py). -/
def get_rag_prompt (context question : String) : String :=
  "You are an intelligent assistant that answers questions based on the provided context from enterprise documents.\n\nContext Information:\n"
    ++ context
    ++ "\n\nQuestion: " ++ question
    ++ "\n\nInstructions:\n1. Answer the question based ONLY on the context provided above.\n2. If the answer cannot be found in the context, clearly state "
    ++ "\"I don" ++ apos ++ "t have enough information in the provided context to answer this question.\"\n"
    ++ "3. Be concise, accurate, and specific.\n4. If multiple relevant pieces of information exist, synthesize them into a coherent answer.\n5. Do not make up information or use knowledge outside the provided context.\n6. DO NOT add disclaimers, notes, or explanations about source consistency, dates, or versions at the end.\n7. Provide only the direct answer - no meta-commentary or assumptions about source consistency.\n\nAnswer:"

/-- The citations list of the success path (rag_query_system.py
lines 117-122). -/
def citationsOf (chunks : List Doc) : List Citation :=
  chunks.map (fun c => ⟨c.metadata.file_name.getD "Unknown", c.metadata.page⟩)

/-- Models `RAGQuerySystem.query` (rag_query_system.py lines 47-129), given the
outcome of the `self.rag.query` call and of the `self.llm.invoke` call
(each an external boundary wrapped in `try/except Exception`). All four
exits build a dict; the keys of the success dict are
`answer, citations, chunks_count, timing`. -/
def RAGQuerySystem.query (retrieval : Except PyErr (List Doc))
    (llm : String → Except PyErr String) (question : String) : PyDict :=
  match retrieval with
  | Except.error e =>
    [("answer", PyVal.str ("Error retrieving information: Retrieval failed: "
        ++ e.name ++ ": " ++ e.msg)),
      ("citations", PyVal.cites []), ("timing", PyVal.timing)]
  | Except.ok chunks =>
    if chunks = [] then
      [("answer", PyVal.str "No relevant information found in the knowledge base."),
        ("citations", PyVal.cites []), ("timing", PyVal.timing)]
    else
      match llm (get_rag_prompt (formatContext chunks) question) with
      | Except.error e =>
        [("answer", PyVal.str ("Error generating answer: LLM invocation failed: "
            ++ e.name ++ ": " ++ e.msg)),
          ("citations", PyVal.cites []), ("timing", PyVal.timing)]
      | Except.ok answer =>
        [("answer", PyVal.str answer),
          ("citations", PyVal.cites (citationsOf chunks)),
          ("chunks_count", PyVal.num chunks.length),
          ("timing", PyVal.timing)]

/-- Composition of `RAGQuerySystem.query` with `RAG.query`, with the argument defaults
the wrapper actually passes (`rerank_top_k = 20`, `hybrid_alpha = 0.5`,
`filter = None`; rag_query_system.py lines 70-76). -/
def RAGQuerySystem.queryFull (ext : Externals) (use_reranker : Bool)
    (llm : String → Except PyErr String) (question : String) (k : ℕ)
    (rerank : Bool) (date_range : Option DateRange) (recency_boost : Bool) : PyDict :=
  RAGQuerySystem.query
    (RAG.query ext use_reranker question k rerank 20 date_range recency_boost (1 / 2))
    llm question

/-- Key lookup in a result dict. -/
def dictGet (d : PyDict) (key : String) : Option PyVal :=
  (d.find? (fun p => p.1 = key)).map Prod.snd

/-- Checks that the scores of a candidate list never increase from one
entry to the next. -/
def scoresNonIncB : List (Doc × ℚ) → Bool
  | [] => true
  | [_] => true
  | a :: b :: rest => decide (b.2 ≤ a.2) && scoresNonIncB (b :: rest)

/- Concrete fixtures used for counterexamples and witnesses. -/

/-- The single corpus chunk of the rerank fail-open scenario. -/
def c1Doc : Doc := ⟨"alpha", Metadata.empty⟩

/-- One-chunk corpus whose rerank collaborator raises an API error. -/
def c1Ext : Externals :=
  ⟨⟨["alpha"], ["id1"], [Metadata.empty]⟩, fun _ _ => [], fun _ => [1],
    fun _ _ => Except.error ⟨"APIError", "timeout"⟩, 0⟩

/-- P4 chunk with a valid date before the filter window. -/
def c2A : Doc := ⟨"a", ⟨IsoField.valid 20230101, some "a.pdf", none⟩⟩

/-- P4 chunk with another valid date before the filter window. -/
def c2B : Doc := ⟨"b", ⟨IsoField.valid 20230601, some "b.pdf", none⟩⟩

/-- P4 chunk with no date metadata. -/
def c2C : Doc := ⟨"c", ⟨IsoField.absent, some "c.pdf", none⟩⟩

/-- Three-chunk corpus for the metadata-gap fallback scenario: two chunks
with valid out-of-range dates, one undated. -/
def c2Ext : Externals :=
  ⟨⟨["a", "b", "c"], ["1", "2", "3"], [c2A.metadata, c2B.metadata, c2C.metadata]⟩,
    fun _ _ => [], fun _ => [1, 2, 3], fun _ _ => Except.ok [], 20240110⟩

/-- Empty-corpus externals. -/
def c5Ext : Externals :=
  ⟨⟨[], [], []⟩, fun _ _ => [], fun _ => [], fun _ _ => Except.ok [], 0⟩

/-- In-range chunk with a weak hybrid score. -/
def c7A : Doc := ⟨"a", ⟨IsoField.valid 100, none, none⟩⟩

/-- Undated chunk with a strong hybrid score. -/
def c7B : Doc := ⟨"b", ⟨IsoField.absent, none, none⟩⟩

/-- Corpus where the undated chunk is the best semantic match. -/
def c7Ext : Externals :=
  ⟨⟨["a", "b"], ["1", "2"], [c7A.metadata, c7B.metadata]⟩,
    fun _ _ => [(c7B, 1)], fun _ => [0, 0], fun _ _ => Except.ok [], 0⟩

/-- One-chunk corpus whose chunk is dated exactly 365 days after `now`. -/
def c9Ext : Externals :=
  ⟨⟨["x"], ["i"], [⟨IsoField.valid 365, none, none⟩]⟩, fun _ _ => [], fun _ => [0],
    fun _ _ => Except.ok [], 0⟩

/-- P3 chunk dated 2024-01-01. -/
def p3A : Doc := ⟨"a", ⟨IsoField.valid 20240101, none, none⟩⟩

/-- P3 chunk dated 2024-06-01. -/
def p3B : Doc := ⟨"b", ⟨IsoField.valid 20240601, none, none⟩⟩

/-- P3 chunk dated 2025-01-01. -/
def p3C : Doc := ⟨"c", ⟨IsoField.valid 20250101, none, none⟩⟩

/-- A retrieved chunk with file and page metadata. -/
def c3Doc : Doc := ⟨"t", ⟨IsoField.absent, some "f.pdf", some "2"⟩⟩

/-- Corpus metadata of the first duplicate-text chunk. -/
def c10m1 : Metadata := ⟨IsoField.absent, some "one.pdf", none⟩

/-- Corpus metadata of the second duplicate-text chunk. -/
def c10m2 : Metadata := ⟨IsoField.valid 7, some "two.pdf", none⟩

/-- The vector-store Document sharing the duplicated text, with its own
metadata. -/
def c10vDoc : Doc := ⟨"t", ⟨IsoField.absent, some "store.pdf", some "3"⟩⟩

/-!
Helper lemmas shared by the claim theorems.
-/

/-- Inversion for a successful `Except` bind. -/
theorem except_bind_ok {α β : Type} {x : Except PyErr α} {f : α → Except PyErr β} {b : β}
    (h : (x >>= f) = Except.ok b) : ∃ a, x = Except.ok a ∧ f a = Except.ok b := by
  cases x with
  | error e => simp [Bind.bind, Except.bind] at h
  | ok a => exact ⟨a, rfl, by simpa [Bind.bind, Except.bind] using h⟩

/-- Prepending an element whose score dominates the head preserves the
non-increasing property. -/
theorem scoresNonIncB_cons (y : Doc × ℚ) (l : List (Doc × ℚ))
    (hl : scoresNonIncB l = true)
    (hd : ∀ m, l.head? = some m → m.2 ≤ y.2) : scoresNonIncB (y :: l) = true := by
  cases l with
  | nil => rfl
  | cons m rest =>
    have h1 : m.2 ≤ y.2 := hd m rfl
    simp [scoresNonIncB, h1, hl]

/-- The head of `insertDesc x l` is `x` or the head of `l`. -/
theorem insertDesc_head (x : Doc × ℚ) (l : List (Doc × ℚ)) :
    (insertDesc x l).head? = some x ∨
      ∃ m, l.head? = some m ∧ (insertDesc x l).head? = some m := by
  cases l with
  | nil => left; rfl
  | cons y ys =>
    by_cases h : x.2 < y.2
    · right; exact ⟨y, rfl, by simp [insertDesc, h]⟩
    · left; simp [insertDesc, h]

/-- Insertion preserves the non-increasing property. -/
theorem insertDesc_nonInc (x : Doc × ℚ) :
    ∀ l : List (Doc × ℚ), scoresNonIncB l = true →
      scoresNonIncB (insertDesc x l) = true := by
  intro l
  induction l with
  | nil => intro _; rfl
  | cons y ys ih =>
    intro h
    have hys : scoresNonIncB ys = true := by
      cases ys with
      | nil => rfl
      | cons z zs =>
        simp [scoresNonIncB] at h
        exact h.2
    by_cases hx : x.2 < y.2
    · have heq : insertDesc x (y :: ys) = y :: insertDesc x ys := by
        simp [insertDesc, hx]
      rw [heq]
      refine scoresNonIncB_cons _ _ (ih hys) ?_
      intro m hm
      rcases insertDesc_head x ys with hh | ⟨m2, hm2, hh⟩
      · rw [hh] at hm
        cases hm
        exact le_of_lt hx
      · rw [hh] at hm
        cases hm
        cases ys with
        | nil => simp at hm2
        | cons z zs =>
          simp at hm2
          subst hm2
          simp [scoresNonIncB] at h
          exact h.1
    · have heq : insertDesc x (y :: ys) = x :: y :: ys := by
        simp [insertDesc, hx]
      rw [heq]
      simp [scoresNonIncB, le_of_not_lt hx, h]

/-- The stable descending sort produces a non-increasing score list. -/
theorem sortDesc_nonInc : ∀ l : List (Doc × ℚ), scoresNonIncB (sortDesc l) = true := by
  intro l
  induction l with
  | nil => rfl
  | cons x xs ih => exact insertDesc_nonInc x _ ih

/-- With recency boosting on, a successful post-combine stage ends in a
`sortDesc`. -/
theorem pipelineAfterCombine_recency_shape (ds de : Option ℤ) (now : ℤ)
    (combined L : List (Doc × ℚ))
    (h : pipelineAfterCombine ds de true now combined = Except.ok L) :
    ∃ b, L = sortDesc b := by
  unfold pipelineAfterCombine at h
  simp only [if_true] at h
  obtain ⟨a, _, ha⟩ := except_bind_ok h
  refine ⟨a, ?_⟩
  simpa [pure, Except.pure] using ha.symm

/-- With recency boosting on, a successful pipeline result is a `sortDesc`
image. -/
theorem pipelineCombined_recency_ok (ext : Externals) (ur : Bool) (q : String)
    (k : ℕ) (rr : Bool) (rtk : ℕ) (dr : Option DateRange) (alpha : ℚ)
    (L : List (Doc × ℚ))
    (h : RAG.pipelineCombined ext ur q k rr rtk dr true alpha = Except.ok L) :
    ∃ b, L = sortDesc b := by
  unfold RAG.pipelineCombined at h
  split at h
  · simp at h
  · obtain ⟨c, _, hc⟩ := except_bind_ok h
    exact pipelineAfterCombine_recency_shape _ _ _ _ _ hc

/-- When the rerank branch is not taken, `RAG.query` is the truncation of a
successful pipeline result. -/
theorem query_of_combined (ext : Externals) (ur : Bool) (q : String)
    (k : ℕ) (rr : Bool) (rtk : ℕ) (dr : Option DateRange) (rb : Bool) (alpha : ℚ)
    (L : List (Doc × ℚ))
    (hL : RAG.pipelineCombined ext ur q k rr rtk dr rb alpha = Except.ok L)
    (hnr : (rr && ur) = false) :
    RAG.query ext ur q k rr rtk dr rb alpha =
      Except.ok (((L.take (if rr || ur then rtk else k)).map Prod.fst).take k) := by
  unfold RAG.query
  rw [hL]
  simp only [Bind.bind, Except.bind, hnr]
  set results := ((L.take (if rr || ur then rtk else k)).map Prod.fst) with hres
  by_cases hlen : k < results.length
  · simp only [if_pos hlen]
    rfl
  · simp only [if_neg hlen]
    rw [List.take_of_length_le (le_of_not_lt hlen)]
    rfl

/-- The date-filter stage always returns the in-range list followed by the
penalized list. -/
theorem dateFilterStage_eq (ds de : Option ℤ) (l : List (Doc × ℚ)) :
    dateFilterStage ds de l = (dateFilterSplit ds de l).1 ++ (dateFilterSplit ds de l).2 := by
  unfold dateFilterStage
  rcases h1 : (dateFilterSplit ds de l).1 with _ | ⟨a, f⟩ <;>
    rcases h2 : (dateFilterSplit ds de l).2 with _ | ⟨b, w⟩ <;>
      simp [h1, h2]

/-- A candidate with a valid in-range date lands, with unchanged score, in
the in-range component of the split. -/
theorem mem_dateFilterSplit_kept (ds de : Option ℤ) (l : List (Doc × ℚ))
    (doc : Doc) (s : ℚ) (d : ℤ)
    (hmem : (doc, s) ∈ l) (hcd : doc.metadata.content_date = IsoField.valid d)
    (hout : outOfRange ds de d = false) :
    (doc, s) ∈ (dateFilterSplit ds de l).1 := by
  induction l with
  | nil => simp at hmem
  | cons p rest ih =>
    obtain ⟨doc2, s2⟩ := p
    rcases List.mem_cons.mp hmem with heq | htail
    · cases heq
      simp [dateFilterSplit, hcd, hout]
    · have hr := ih htail
      rcases hcd2 : doc2.metadata.content_date with _ | _ | d2
      · simpa [dateFilterSplit, hcd2] using hr
      · simpa [dateFilterSplit, hcd2] using hr
      · by_cases ho : outOfRange ds de d2
        · simpa [dateFilterSplit, hcd2, ho] using hr
        · simp [dateFilterSplit, hcd2, ho]
          exact Or.inr hr

/-- A candidate with a valid out-of-range date appears in neither component
of the split. -/
theorem not_mem_dateFilterSplit (ds de : Option ℤ) (l : List (Doc × ℚ))
    (doc : Doc) (d : ℤ)
    (hcd : doc.metadata.content_date = IsoField.valid d)
    (hout : outOfRange ds de d = true) (s : ℚ) :
    (doc, s) ∉ (dateFilterSplit ds de l).1 ∧ (doc, s) ∉ (dateFilterSplit ds de l).2 := by
  induction l with
  | nil => simp [dateFilterSplit]
  | cons p rest ih =>
    obtain ⟨doc2, s2⟩ := p
    rcases hcd2 : doc2.metadata.content_date with _ | _ | d2
    · refine ⟨by simpa [dateFilterSplit, hcd2] using ih.1, ?_⟩
      simp only [dateFilterSplit, hcd2]
      intro hmem
      rcases List.mem_cons.mp hmem with heq | htail
      · have : doc = doc2 := congrArg Prod.fst heq
        rw [this, hcd2] at hcd
        exact IsoField.noConfusion hcd
      · exact ih.2 htail
    · refine ⟨by simpa [dateFilterSplit, hcd2] using ih.1, ?_⟩
      simp only [dateFilterSplit, hcd2]
      intro hmem
      rcases List.mem_cons.mp hmem with heq | htail
      · have : doc = doc2 := congrArg Prod.fst heq
        rw [this, hcd2] at hcd
        exact IsoField.noConfusion hcd
      · exact ih.2 htail
    · by_cases ho : outOfRange ds de d2
      · constructor
        · simpa [dateFilterSplit, hcd2, ho] using ih.1
        · simpa [dateFilterSplit, hcd2, ho] using ih.2
      · refine ⟨?_, by simpa [dateFilterSplit, hcd2, ho] using ih.2⟩
        simp only [dateFilterSplit, hcd2, if_neg ho]
        intro hmem
        rcases List.mem_cons.mp hmem with heq | htail
        · have hde : doc = doc2 := congrArg Prod.fst heq
          rw [hde, hcd2] at hcd
          have hd : d = d2 := by
            injection hcd with h
            exact h.symm
          rw [hd] at hout
          rw [hout] at ho
          exact ho rfl
        · exact ih.1 htail

/-- When the in-range component is empty and the penalized component is not,
the filter stage returns exactly the penalized component. -/
theorem dateFilterStage_fallback (ds de : Option ℤ) (l w : List (Doc × ℚ))
    (hsplit : dateFilterSplit ds de l = ([], w)) (hw : w ≠ []) :
    dateFilterStage ds de l = w := by
  unfold dateFilterStage
  rw [hsplit]
  simp [hw]

/-- Positional characterisation of a successful combine stage: one output
entry per corpus entry, built from the text-keyed semantic lookup and the
BM25 score at the entry's index. -/
theorem combineStage_spec (alpha : ℚ) (vres : List (Doc × ℚ)) (bm : List ℚ) :
    ∀ (start : ℕ) (l : List (String × Metadata)) (out : List (Doc × ℚ)),
      combineStage alpha vres bm start l = Except.ok out →
      out.length = l.length ∧
      ∀ i (hi : i < l.length) (ho : i < out.length),
        ∃ b, bm.get? (start + i) = some b ∧
          out.get ⟨i, ho⟩ = (combineDoc vres (l.get ⟨i, hi⟩).1 (l.get ⟨i, hi⟩).2,
            alpha * normalizedVector vres (l.get ⟨i, hi⟩).1 +
              (1 - alpha) * bm25Normalize bm b) := by
  intro start l
  induction l generalizing start with
  | nil =>
    intro out h
    have : out = [] := by
      simpa [combineStage] using h.symm
    subst this
    exact ⟨rfl, fun i hi => absurd hi (by simp)⟩
  | cons p rest ih =>
    intro out h
    obtain ⟨t, m⟩ := p
    simp only [combineStage] at h
    obtain ⟨x, hx, h2⟩ := except_bind_ok h
    obtain ⟨xs, hxs, h3⟩ := except_bind_ok h2
    have hout : out = x :: xs := by
      simpa [pure, Except.pure] using h3.symm
    subst hout
    rcases hb : bm.get? start with _ | b
    · rw [combineStep, hb] at hx
      exact absurd hx (by simp)
    · rw [combineStep, hb] at hx
      have hxval : x = (combineDoc vres t m,
          alpha * normalizedVector vres t + (1 - alpha) * bm25Normalize bm b) := by
        simpa using hx.symm
      obtain ⟨ihlen, ihget⟩ := ih (start + 1) xs hxs
      constructor
      · simp [ihlen]
      · intro i hi ho
        cases i with
        | zero =>
          refine ⟨b, by simpa using hb, ?_⟩
          simp [hxval]
        | succ j =>
          have hj : j < rest.length := by simpa using hi
          have hoj : j < xs.length := by simpa using ho
          obtain ⟨bj, hbj, hgetj⟩ := ihget j hj hoj
          refine ⟨bj, ?_, ?_⟩
          · have : start + 1 + j = start + (j + 1) := by omega
            rw [← this]
            exact hbj
          · simpa using hgetj

/-- A content date exactly 365 days after the clock makes the recency
denominator zero, raising `ZeroDivisionError`. -/
theorem recencyVal_yearAhead (n : ℤ) :
    recencyVal n ⟨IsoField.valid (n + 365), none, none⟩ =
      Except.error ⟨"ZeroDivisionError", "float division by zero"⟩ := by
  unfold recencyVal
  have h : (1 : ℚ) + ((n - (n + 365) : ℤ) : ℚ) / 365 = 0 := by
    have : (n - (n + 365) : ℤ) = -365 := by ring
    rw [this]
    norm_num
  simp [h]

/-!
Claim theorems.
-/

/-- C1, counterexample: with a one-chunk corpus and a rerank collaborator
that raises an API error, `RAG.query` with reranking enabled returns that
error — not the pre-rerank truncated candidate list `[c1Doc]` — so the
rerank step does not fail open and the error is propagated. -/
theorem c1_counterexample :
    RAG.query c1Ext true "q" 4 true 20 none false (1/2) =
      Except.error ⟨"APIError", "timeout"⟩ ∧
    RAG.query c1Ext true "q" 4 true 20 none false (1/2) ≠ Except.ok [c1Doc] := by
  decide

/-- C1, amended: when the rerank collaborator raises, `Reranker.rerank`
propagates the exception (for a nonempty candidate list); when the
collaborator returns only malformed entries (no valid in-range integer
index), the entries are silently skipped and the result is the empty
list, not the original candidates. -/
theorem c1_amended : ∀ (e : PyErr) (docs : List Doc) (entries : List (Option ℤ)),
    docs ≠ [] →
    Reranker.rerank (Except.error e) docs = Except.error e ∧
    ((∀ x ∈ entries, extractIdx docs x = none) →
      Reranker.rerank (Except.ok entries) docs = Except.ok []) := by
  intro e docs entries hne
  constructor
  · unfold Reranker.rerank
    simp [hne, Bind.bind, Except.bind]
  · intro hall
    unfold Reranker.rerank
    simp [hne, Bind.bind, Except.bind, pure, Except.pure, List.filterMap_eq_nil_iff.mpr hall]

/-- C1, witness for the amended theorem at a concrete raising collaborator
and a concrete fully-malformed response. -/
theorem c1_amended_witness :
    Reranker.rerank (Except.error ⟨"APIError", "timeout"⟩) [c1Doc] =
      Except.error ⟨"APIError", "timeout"⟩ ∧
    Reranker.rerank (Except.ok [some 5, none, some (-1)]) [c1Doc] = Except.ok [] := by
  have h := c1_amended ⟨"APIError", "timeout"⟩ [c1Doc] [some 5, none, some (-1)] (by decide)
  exact ⟨h.1, h.2 (by decide)⟩

/-- C2: if strict/penalized date filtering leaves no in-range candidate but
some candidates had missing or unparsable dates, the penalized
candidates become the entire result set; concretely, on a corpus of 3
chunks — 2 with valid out-of-range dates, 1 undated — `RAG.query`
returns exactly the undated chunk. -/
theorem c2_metadata_gap_fallback :
    (∀ (ds de : Option ℤ) (l w : List (Doc × ℚ)),
      dateFilterSplit ds de l = ([], w) → w ≠ [] → dateFilterStage ds de l = w) ∧
    RAG.query c2Ext false "q" 4 false 20
      (some ⟨IsoField.valid 20240101, IsoField.absent⟩) true (1/2) = Except.ok [c2C] := by
  constructor
  · intro ds de l w h1 h2
    exact dateFilterStage_fallback ds de l w h1 h2
  · decide

/-- C2, witness: the fallback applied to a concrete one-element penalized
split. -/
theorem c2_metadata_gap_fallback_witness :
    dateFilterStage (some 99) none [(c2C, 1)] = [(c2C, 4/5)] :=
  c2_metadata_gap_fallback.1 (some 99) none [(c2C, 1)] [(c2C, 4/5)] (by decide) (by decide)

/-- C3, counterexample: on a successful run the keys of the returned dict
are `answer, citations, chunks_count, timing` — the key `chunk_count`
claimed by the specification does not occur. -/
theorem c3_counterexample :
    (RAGQuerySystem.query (Except.ok [c3Doc]) (fun _ => Except.ok "Ans") "q").map Prod.fst =
      ["answer", "citations", "chunks_count", "timing"] ∧
    "chunk_count" ∉
      (RAGQuerySystem.query (Except.ok [c3Doc]) (fun _ => Except.ok "Ans") "q").map Prod.fst := by
  decide

/-- C3, amended: `RAGQuerySystem.query` never raises — it is total over all
retrieval and LLM outcomes; on retrieval failure or LLM failure the
answer begins with an error description and citations are empty; on
empty retrieval it returns the no-relevant-information answer without a
count key; on success the dict has keys
`answer, citations, chunks_count, timing` (not `chunk_count`). -/
theorem c3_amended : ∀ (retrieval : Except PyErr (List Doc))
    (llm : String → Except PyErr String) (q : String),
    (∀ e, retrieval = Except.error e →
      dictGet (RAGQuerySystem.query retrieval llm q) "answer" =
        some (PyVal.str ("Error retrieving information: Retrieval failed: "
          ++ e.name ++ ": " ++ e.msg)) ∧
      dictGet (RAGQuerySystem.query retrieval llm q) "citations" = some (PyVal.cites [])) ∧
    (retrieval = Except.ok [] →
      dictGet (RAGQuerySystem.query retrieval llm q) "answer" =
        some (PyVal.str "No relevant information found in the knowledge base.") ∧
      dictGet (RAGQuerySystem.query retrieval llm q) "citations" = some (PyVal.cites []) ∧
      dictGet (RAGQuerySystem.query retrieval llm q) "chunks_count" = none) ∧
    (∀ chunks e, retrieval = Except.ok chunks → chunks ≠ [] →
      llm (get_rag_prompt (formatContext chunks) q) = Except.error e →
      dictGet (RAGQuerySystem.query retrieval llm q) "answer" =
        some (PyVal.str ("Error generating answer: LLM invocation failed: "
          ++ e.name ++ ": " ++ e.msg)) ∧
      dictGet (RAGQuerySystem.query retrieval llm q) "citations" = some (PyVal.cites [])) ∧
    (∀ chunks a, retrieval = Except.ok chunks → chunks ≠ [] →
      llm (get_rag_prompt (formatContext chunks) q) = Except.ok a →
      (RAGQuerySystem.query retrieval llm q).map Prod.fst =
        ["answer", "citations", "chunks_count", "timing"] ∧
      dictGet (RAGQuerySystem.query retrieval llm q) "answer" = some (PyVal.str a) ∧
      dictGet (RAGQuerySystem.query retrieval llm q) "citations" =
        some (PyVal.cites (citationsOf chunks)) ∧
      dictGet (RAGQuerySystem.query retrieval llm q) "chunks_count" =
        some (PyVal.num chunks.length)) := by
  intro retrieval llm q
  refine ⟨?_, ?_, ?_, ?_⟩
  · intro e he
    subst he
    exact ⟨rfl, rfl⟩
  · intro he
    subst he
    exact ⟨rfl, rfl, rfl⟩
  · intro chunks e hr hne hllm
    subst hr
    cases chunks with
    | nil => exact absurd rfl hne
    | cons c cs =>
      simp only [RAGQuerySystem.query, reduceCtorEq, if_false, hllm]
      exact ⟨rfl, rfl⟩
  · intro chunks a hr hne hllm
    subst hr
    cases chunks with
    | nil => exact absurd rfl hne
    | cons c cs =>
      simp only [RAGQuerySystem.query, reduceCtorEq, if_false, hllm]
      exact ⟨rfl, rfl, rfl, rfl⟩

/-- C3, witness for the amended theorem on a concrete successful run. -/
theorem c3_amended_witness :
    (RAGQuerySystem.query (Except.ok [c3Doc]) (fun _ => Except.ok "Ans") "q").map Prod.fst =
      ["answer", "citations", "chunks_count", "timing"] ∧
    dictGet (RAGQuerySystem.query (Except.ok [c3Doc]) (fun _ => Except.ok "Ans") "q")
      "answer" = some (PyVal.str "Ans") := by
  have h := (c3_amended (Except.ok [c3Doc]) (fun _ => Except.ok "Ans") "q").2.2.2
    [c3Doc] "Ans" rfl (by decide) rfl
  exact ⟨h.1, h.2.1⟩

/-- C4: under a date range, a chunk with a valid in-range `content_date`
(bounds inclusive, open-ended where a bound is missing) is kept at its
unchanged score, and a chunk with a valid strictly out-of-range date is
dropped; concretely, for chunks dated 2024-01-01, 2024-06-01, 2025-01-01
and range 2024-01-01..2024-12-31 only the first two survive, at full
score. -/
theorem c4_date_filter :
    (∀ (ds de : Option ℤ) (l : List (Doc × ℚ)) (doc : Doc) (s : ℚ) (d : ℤ),
      (doc, s) ∈ l → doc.metadata.content_date = IsoField.valid d →
      outOfRange ds de d = false → (doc, s) ∈ dateFilterStage ds de l) ∧
    (∀ (ds de : Option ℤ) (l : List (Doc × ℚ)) (doc : Doc) (d : ℤ),
      doc.metadata.content_date = IsoField.valid d → outOfRange ds de d = true →
      ∀ s, (doc, s) ∉ dateFilterStage ds de l) ∧
    dateFilterStage (some 20240101) (some 20241231)
      [(p3A, 1), (p3B, 1/2), (p3C, 1)] = [(p3A, 1), (p3B, 1/2)] := by
  refine ⟨?_, ?_, by decide⟩
  · intro ds de l doc s d hmem hcd hout
    rw [dateFilterStage_eq]
    exact List.mem_append.mpr (Or.inl (mem_dateFilterSplit_kept ds de l doc s d hmem hcd hout))
  · intro ds de l doc d hcd hout s
    rw [dateFilterStage_eq]
    intro hmem
    rcases List.mem_append.mp hmem with h | h
    · exact (not_mem_dateFilterSplit ds de l doc d hcd hout s).1 h
    · exact (not_mem_dateFilterSplit ds de l doc d hcd hout s).2 h

/-- C4, witness: both directions of the filter at concrete chunks. -/
theorem c4_date_filter_witness :
    (p3A, (1:ℚ)) ∈ dateFilterStage (some 20240101) (some 20241231) [(p3A, 1)] ∧
    ∀ s, (p3C, s) ∉ dateFilterStage (some 20240101) (some 20241231) [(p3C, s)] := by
  constructor
  · exact c4_date_filter.1 (some 20240101) (some 20241231) [(p3A, 1)] p3A 1 20240101
      (by decide) (by decide) (by decide)
  · intro s
    exact c4_date_filter.2.1 (some 20240101) (some 20241231) [(p3C, s)] p3C 20250101
      (by decide) (by decide) s

/-- C5: on an empty corpus the lexical index build divides by zero
(rank_bm25 `BM25._initialize`), so `RAG.query` raises
`ZeroDivisionError` instead of returning an empty list, and the citation
wrapper converts it into a retrieval-error answer instead of the defined
no-relevant-information answer — the claim describes intended behaviour
the code does not implement. -/
theorem c5_empty_corpus :
    RAG.query c5Ext false "q" 5 false 20 none true (1/2) =
      Except.error ⟨"ZeroDivisionError", "division by zero"⟩ ∧
    RAGQuerySystem.queryFull c5Ext false (fun _ => Except.ok "unused") "q" 5 false none true =
      [("answer", PyVal.str
          "Error retrieving information: Retrieval failed: ZeroDivisionError: division by zero"),
        ("citations", PyVal.cites []), ("timing", PyVal.timing)] := by
  decide

/-- C6, counterexample: with a provided (truthy) `date_range` whose only
bound is unparsable and `recency_boost = False`, the over-fetch size for
`k = 4` is 8, below the claimed lower bound `3k = 12`. -/
theorem c6_counterexample :
    initialKOf (some ⟨IsoField.invalid, IsoField.absent⟩) false false false 4 20 = 8 ∧
    ¬ 3 * 4 ≤ initialKOf (some ⟨IsoField.invalid, IsoField.absent⟩) false false false 4 20 := by
  decide

/-- C6, amended: the over-fetch size is always at least
`max(k, rerank_top_k if reranking else k)`, and at least `3k` whenever
recency boosting is on or at least one `date_range` bound actually
parses (rather than whenever a `date_range` dict is merely provided). -/
theorem c6_amended : ∀ (dr : Option DateRange) (rb rr ur : Bool) (k rtk : ℕ),
    max k (if rr || ur then rtk else k) ≤ initialKOf dr rb rr ur k rtk ∧
    (rb = true ∨ (parseBounds dr).1.isSome = true ∨ (parseBounds dr).2.isSome = true →
      3 * k ≤ initialKOf dr rb rr ur k rtk) := by
  intro dr rb rr ur k rtk
  unfold initialKOf initialK
  constructor
  · apply max_le
    · refine le_trans ?_ (le_max_right _ _)
      split <;> omega
    · exact le_max_left _ _
  · intro h
    have hnf : needsFiltering (parseBounds dr).1 (parseBounds dr).2 rb = true := by
      unfold needsFiltering
      rcases h with h | h | h <;> simp [h]
    simp only [hnf, if_true]
    refine le_trans ?_ (le_max_right _ _)
    omega

/-- C6, witness: the amended bound at `k = 4` with recency boosting on. -/
theorem c6_amended_witness :
    max 4 (if (false || false : Bool) then 20 else 4) ≤ initialKOf none true false false 4 20 ∧
    3 * 4 ≤ initialKOf none true false false 4 20 :=
  ⟨(c6_amended none true false false 4 20).1, (c6_amended none true false false 4 20).2 (Or.inl rfl)⟩

/-- C7, counterexample: with `recency_boost = False` and a date range that
sends one undated high-scoring chunk to the penalized tail, the
candidate list after the temporal stage is `[(a, 0), (b, 2/5)]` — not
re-sorted, with increasing final scores — and `RAG.query` returns the
chunks in that non-sorted order. -/
theorem c7_counterexample :
    RAG.pipelineCombined c7Ext false "q" 2 false 20
      (some ⟨IsoField.valid 50, IsoField.absent⟩) false 1 =
      Except.ok [(c7A, 0), (c7B, 2/5)] ∧
    scoresNonIncB [(c7A, 0), (c7B, 2/5)] = false ∧
    RAG.query c7Ext false "q" 2 false 20
      (some ⟨IsoField.valid 50, IsoField.absent⟩) false 1 = Except.ok [c7A, c7B] := by
  decide

/-- C7, amended: the re-sort before truncation happens exactly when recency
boosting is active: then the candidate list is in non-increasing
final-score order (`final = 0.7*hybrid + 0.3*recency`) and the returned
chunks are its truncated projection; with recency boosting off, no
re-sort follows the date filter and penalized chunks may appear out of
order. -/
theorem c7_amended : ∀ (ext : Externals) (ur : Bool) (q : String) (k : ℕ) (rr : Bool)
    (rtk : ℕ) (dr : Option DateRange) (alpha : ℚ) (L : List (Doc × ℚ)),
    RAG.pipelineCombined ext ur q k rr rtk dr true alpha = Except.ok L →
    (rr && ur) = false →
    scoresNonIncB L = true ∧
    RAG.query ext ur q k rr rtk dr true alpha =
      Except.ok (((L.take (if rr || ur then rtk else k)).map Prod.fst).take k) := by
  intro ext ur q k rr rtk dr alpha L hL hnr
  obtain ⟨b, hb⟩ := pipelineCombined_recency_ok ext ur q k rr rtk dr alpha L hL
  exact ⟨hb ▸ sortDesc_nonInc b, query_of_combined ext ur q k rr rtk dr true alpha L hL hnr⟩

/-- C7, witness: the amended theorem at a concrete recency-boosted run. -/
theorem c7_amended_witness :
    scoresNonIncB [(c7A, (219:ℚ)/530), (c7B, 7/25)] = true ∧
    RAG.query c7Ext false "q" 2 false 20 (some ⟨IsoField.valid 50, IsoField.absent⟩) true 1 =
      Except.ok
        ((([(c7A, (219:ℚ)/530), (c7B, 7/25)].take (if (false || false : Bool) then 20 else 2)).map
          Prod.fst).take 2) :=
  c7_amended c7Ext false "q" 2 false 20 (some ⟨IsoField.valid 50, IsoField.absent⟩) 1
    [(c7A, (219:ℚ)/530), (c7B, 7/25)] (by decide) rfl

/-- C8, counterexample: the normalization maps distance 0 to 0, which lies
outside `(0, 1]`, and the map is not monotonically decreasing since its
value rises from 0 at distance 0 to 1/2 at distance 1. -/
theorem c8_counterexample :
    normalizeDistance 0 ∉ Set.Ioc (0:ℚ) 1 ∧ normalizeDistance 0 < normalizeDistance 1 := by
  constructor
  · simp [normalizeDistance, Set.mem_Ioc]
  · norm_num [normalizeDistance]

/-- C8, amended: restricted to strictly positive distances, the
normalization maps into `(0, 1]` and is strictly decreasing; distance 0
(like the missing-match sentinel) maps to 0 instead. -/
theorem c8_amended : ∀ d : ℚ, 0 < d →
    normalizeDistance d ∈ Set.Ioc (0:ℚ) 1 ∧
    ∀ e, d < e → normalizeDistance e < normalizeDistance d := by
  intro d hd
  have hd1 : (0:ℚ) < 1 + d := by linarith
  constructor
  · unfold normalizeDistance
    rw [if_pos hd]
    refine Set.mem_Ioc.mpr ⟨by positivity, ?_⟩
    rw [div_le_one hd1]
    linarith
  · intro e he
    have he0 : (0:ℚ) < e := lt_trans hd he
    unfold normalizeDistance
    rw [if_pos he0, if_pos hd]
    exact one_div_lt_one_div_of_lt hd1 (by linarith)

/-- C8, witness: the amended theorem at distances 1 and 2. -/
theorem c8_amended_witness :
    normalizeDistance 1 ∈ Set.Ioc (0:ℚ) 1 ∧ normalizeDistance 2 < normalizeDistance 1 :=
  ⟨(c8_amended 1 one_pos).1, (c8_amended 1 one_pos).2 2 (by norm_num)⟩

/-- C9: for every clock value there is a syntactically valid `content_date`
— exactly 365 days ahead, giving `days_since = -365` — on which the
recency computation raises `ZeroDivisionError`, which the surrounding
`except (ValueError, TypeError)` does not catch, so `RAG.query` raises;
shown concretely on a one-chunk corpus. -/
theorem c9_recency_division :
    (∀ n : ℤ, recencyVal n ⟨IsoField.valid (n + 365), none, none⟩ =
      Except.error ⟨"ZeroDivisionError", "float division by zero"⟩) ∧
    RAG.query c9Ext false "q" 4 false 20 none true (1/2) =
      Except.error ⟨"ZeroDivisionError", "float division by zero"⟩ :=
  ⟨recencyVal_yearAhead, by decide⟩

/-- C10: the hybrid merge matches semantic results to corpus chunks by exact
text: corpus entries with identical content receive the same semantic
similarity term in their hybrid score, and whenever a semantic match for
that text exists, its Document (with its own metadata) replaces both
corpus entries in the output. -/
theorem c10_text_keyed_merge : ∀ (alpha : ℚ) (vres : List (Doc × ℚ)) (bm : List ℚ)
    (l : List (String × Metadata)) (out : List (Doc × ℚ))
    (i j : ℕ) (hi : i < l.length) (hj : j < l.length)
    (hoi : i < out.length) (hoj : j < out.length),
    combineStage alpha vres bm 0 l = Except.ok out →
    (l.get ⟨i, hi⟩).1 = (l.get ⟨j, hj⟩).1 →
    ((∀ dv sv, lastLookup vres (l.get ⟨i, hi⟩).1 = some (dv, sv) →
      (out.get ⟨i, hoi⟩).1 = dv ∧ (out.get ⟨j, hoj⟩).1 = dv) ∧
     ∃ bi bj, bm.get? i = some bi ∧ bm.get? j = some bj ∧
       (out.get ⟨i, hoi⟩).2 = alpha * normalizedVector vres (l.get ⟨i, hi⟩).1 +
         (1 - alpha) * bm25Normalize bm bi ∧
       (out.get ⟨j, hoj⟩).2 = alpha * normalizedVector vres (l.get ⟨i, hi⟩).1 +
         (1 - alpha) * bm25Normalize bm bj) := by
  intro alpha vres bm l out i j hi hj hoi hoj hok htext
  obtain ⟨hlen, hget⟩ := combineStage_spec alpha vres bm 0 l out hok
  obtain ⟨bi, hbi, hgi⟩ := hget i hi hoi
  obtain ⟨bj, hbj, hgj⟩ := hget j hj hoj
  constructor
  · intro dv sv hlk
    constructor
    · rw [hgi]
      show combineDoc vres (l.get ⟨i, hi⟩).1 (l.get ⟨i, hi⟩).2 = dv
      unfold combineDoc
      rw [hlk]
      rfl
    · rw [hgj]
      show combineDoc vres (l.get ⟨j, hj⟩).1 (l.get ⟨j, hj⟩).2 = dv
      unfold combineDoc
      rw [← htext, hlk]
      rfl
  · refine ⟨bi, bj, by simpa using hbi, by simpa using hbj, by rw [hgi], ?_⟩
    rw [hgj, htext]

/-- C10, witness: two corpus entries with the same text and different
metadata both get replaced by the vector-store Document. -/
theorem c10_text_keyed_merge_witness :
    ([(c10vDoc, (1:ℚ)/4), (c10vDoc, (300000001:ℚ)/400000004)].get ⟨0, by decide⟩).1 = c10vDoc ∧
    ([(c10vDoc, (1:ℚ)/4), (c10vDoc, (300000001:ℚ)/400000004)].get ⟨1, by decide⟩).1 = c10vDoc := by
  have h := c10_text_keyed_merge (1/2) [(c10vDoc, 1)] [0, 1] [("t", c10m1), ("t", c10m2)]
    [(c10vDoc, (1:ℚ)/4), (c10vDoc, (300000001:ℚ)/400000004)] 0 1
    (by decide) (by decide) (by decide) (by decide) (by decide) (by decide)
  exact h.1 c10vDoc 1 (by decide)

end AgentLy
